import Mathlib

/-!
# Verification of the HEIC-to-JPG batch converter (`main.py`)

A shallow embedding of the converter's own logic: file discovery,
EXIF-source selection, save-parameter assembly, single-file conversion
control flow, batch orchestration, and the CLI exit-code mapping.
External collaborators (the image codec, `piexif.dump`, the filesystem)
are modelled abstractly; all logic that belongs to the repository itself
is translated from the source.
-/

namespace HeicConvert

/-! ## Path suffixes (pathlib semantics)

`pathlib.PurePath.suffix`: the substring of the final path component from
its last dot onward, provided that dot is neither the first nor the last
character of the name; otherwise the empty string. -/

/-- Index of the last occurrence of a character in a list, if any. -/
def lastIdxOf (c : Char) (cs : List Char) : Option Nat :=
  match cs.reverse.findIdx? (fun x => x = c) with
  | none => none
  | some j => some (cs.length - 1 - j)

/-- `pathlib` suffix of a file name (final path component). -/
def pathSuffix (name : String) : String :=
  let cs := name.toList
  match lastIdxOf '.' cs with
  | none => ""
  | some i => if 0 < i ∧ i < cs.length - 1 then String.mk (cs.drop i) else ""

/-! ## File discovery (`HEICToJPGConverter.find_heic_files`) -/

/-- A filesystem entry produced by `folder_path.rglob('*')`: its final
component name and whether it is a regular file. -/
structure FsEntry where
  name : String
  isFile : Bool
deriving DecidableEq, Repr

/-- The literal extension set of `find_heic_files`:
`{'.heic', '.heif', '.HEIC', '.HEIF'}`. -/
def heic_extensions : List String := [".heic", ".heif", ".HEIC", ".HEIF"]

/-- `find_heic_files`: keep the entries that are regular files whose
suffix is a member of `heic_extensions`.  The recursive traversal
(`rglob`) is abstracted as the input list of all entries under the root. -/
def find_heic_files (entries : List FsEntry) : List FsEntry :=
  entries.filter (fun e => e.isFile && heic_extensions.contains (pathSuffix e.name))

/-! ## Python values and metadata (`preserve_metadata`)

A Python value stored in the decoder's `info` mapping or as an EXIF entry
value.  Only its scalar-ness (`isinstance(value, (str, bytes, int, float))`)
and its truthiness are inspected by the converter; floats and foreign
objects are abstracted to their truthiness. -/

inductive InfoVal where
  | str (s : String)
  | bytes (bs : List Nat)
  | int (n : Int)
  | flt (truthy : Bool)
  | objVal (truthy : Bool)
deriving DecidableEq, Repr

/-- Python truthiness of an `InfoVal`. -/
def InfoVal.truthy : InfoVal → Bool
  | .str s => !s.isEmpty
  | .bytes bs => !bs.isEmpty
  | .int n => decide (n ≠ 0)
  | .flt t => t
  | .objVal t => t

/-- `isinstance(value, (str, bytes, int, float))`. -/
def InfoVal.isScalar : InfoVal → Bool
  | .objVal _ => false
  | _ => true

/-- A Python dictionary key of an EXIF entry: an `int`, or some
non-integer object. -/
inductive PyKey where
  | int (n : Int)
  | obj (tag : String)
deriving DecidableEq, Repr

/-- `isinstance(tag_id, int) and tag_id in range(0, 65536)`. -/
def validTag : PyKey → Bool
  | .int n => decide (0 ≤ n ∧ n < 65536)
  | .obj _ => false

/-- The decoder-exposed view of a decoded image: the generic `info`
mapping, the structured `getexif()` entries (`none` when the accessor
raises), and the legacy `_getexif()` entries (`none` when absent or
raising). -/
structure ImageInfo where
  info : List (String × InfoVal)
  getexifEntries : Option (List (PyKey × InfoVal))
  legacyExif : Option (List (PyKey × InfoVal))
deriving DecidableEq, Repr

/-- Ordered lookup in an association list, as a Python `dict` key test. -/
def lookupInfo (info : List (String × InfoVal)) (k : String) : Option InfoVal :=
  (info.find? (fun e => e.1 == k)).map (fun e => e.2)

/-- The `MetadataBundle` built by `preserve_metadata`: each field is
`some _` exactly when the corresponding key is stored in the Python
`metadata_info` dict. -/
structure MetadataBundle where
  info : Option (List (String × InfoVal))
  exif_raw : Option InfoVal
  xmp : Option InfoVal
  icc_profile : Option InfoVal
  exif_dict : Option (List (PyKey × InfoVal))
  legacy_exif : Option (List (PyKey × InfoVal))
deriving DecidableEq, Repr

/-- `preserve_metadata`: copy the `info` mapping when truthy (non-empty)
and pull out the `exif`/`xmp`/`icc_profile` keys; store the structured
EXIF view when truthy (non-empty); store the legacy EXIF view when
present and truthy. -/
def preserve_metadata (img : ImageInfo) : MetadataBundle :=
  let hasInfo := !img.info.isEmpty
  { info := if hasInfo then some img.info else none
    exif_raw := if hasInfo then lookupInfo img.info "exif" else none
    xmp := if hasInfo then lookupInfo img.info "xmp" else none
    icc_profile := if hasInfo then lookupInfo img.info "icc_profile" else none
    exif_dict :=
      match img.getexifEntries with
      | some es => if es.isEmpty then none else some es
      | none => none
    legacy_exif :=
      match img.legacyExif with
      | some es => if es.isEmpty then none else some es
      | none => none }

/-! ## EXIF payload selection (`convert_single_file`, lines 211-254)

`piexif.dump` is an external collaborator that can raise (for instance
`struct.pack('>H', key)` rejects keys outside `[0, 65536)`, and tags
missing from piexif's table raise); whether it accepts a given entry list
is abstracted as an oracle `dumpOk`.  A successful dump is the constructor
`ExifData.dumped` of the entry list it was given; its bytes start with an
`Exif` header, hence are non-empty and truthy. -/

/-- Oracle: does `piexif.dump({"Exif": entries})` succeed on this entry
list? -/
abbrev DumpOracle := List (PyKey × InfoVal) → Bool

inductive ExifData where
  | raw (v : InfoVal)
  | dumped (entries : List (PyKey × InfoVal))
deriving DecidableEq, Repr

/-- Python truthiness of the `exif_data` variable. -/
def ExifData.truthy : ExifData → Bool
  | .raw v => v.truthy
  | .dumped _ => true

/-- `not exif_data` for the `exif_data` variable (`None` or a payload). -/
def exifFalsy : Option ExifData → Bool
  | none => true
  | some d => !d.truthy

/-- The value of the `exif_data` variable after the three `if` blocks of
`convert_single_file`: raw bytes first; if still falsy, the filtered
structured dictionary dumped when the filtered set is non-empty and the
dump succeeds; if still falsy, the legacy view dumped with no filtering.
Each block's `try/except` swallows a dump failure and leaves `exif_data`
at its previous value. -/
def selectExifData (dumpOk : DumpOracle) (m : MetadataBundle) :
    Option ExifData :=
  let d0 : Option ExifData :=
    match m.exif_raw with
    | some v => some (.raw v)
    | none => none
  let d1 : Option ExifData :=
    if exifFalsy d0 then
      match m.exif_dict with
      | some entries =>
        let exif_ifd := entries.filter (fun e => validTag e.1)
        if exif_ifd.isEmpty then d0
        else if dumpOk exif_ifd then some (.dumped exif_ifd) else d0
      | none => d0
    else d0
  if exifFalsy d1 then
    match m.legacy_exif with
    | some entries => if dumpOk entries then some (.dumped entries) else d1
    | none => d1
  else d1

/-- The EXIF payload actually attached to the save parameters:
`if exif_data: save_kwargs['exif'] = exif_data`. -/
def attachedExif (dumpOk : DumpOracle) (m : MetadataBundle) :
    Option ExifData :=
  match selectExifData dumpOk m with
  | some d => if d.truthy then some d else none
  | none => none

/-- Concrete dump behaviour at the inputs used in this file:
`piexif.dump` raises when some key is not an integer in `[0, 65536)`
(`struct.pack('>H', key)` rejects it before any tag lookup); on the
all-valid-key lists appearing below — tag 36867 (`DateTimeOriginal`,
ASCII) with a string value — it succeeds. -/
def dumpOkModel : DumpOracle :=
  fun entries => entries.all (fun e => validTag e.1)

/-! ## Save-parameter assembly (`convert_single_file`, lines 204-275) -/

/-- A value stored in `save_kwargs`. -/
inductive SaveVal where
  | s (v : String)
  | i (n : Int)
  | b (v : Bool)
  | exif (d : ExifData)
  | iv (v : InfoVal)
deriving DecidableEq, Repr

/-- `save_kwargs[k] = v` on a `dict` modelled as an association list:
overwrite the entry if the key is present, append otherwise. -/
def setKw (kws : List (String × SaveVal)) (k : String) (v : SaveVal) :
    List (String × SaveVal) :=
  if kws.any (fun e => e.1 == k) then
    kws.map (fun e => if e.1 == k then (k, v) else e)
  else kws ++ [(k, v)]

/-- The full `save_kwargs` dict passed to `img.save`: the base JPEG
parameters, then the EXIF payload when truthy, then the ICC profile when
stored in the bundle, then every scalar `info` entry whose key is not one
of `exif`/`icc_profile`/`xmp`. -/
def build_save_kwargs (dumpOk : DumpOracle) (quality : Int)
    (m : MetadataBundle) : List (String × SaveVal) :=
  let kws : List (String × SaveVal) :=
    [("format", .s "JPEG"), ("quality", .i quality), ("optimize", .b true)]
  let kws :=
    match attachedExif dumpOk m with
    | some d => setKw kws "exif" (.exif d)
    | none => kws
  let kws :=
    match m.icc_profile with
    | some v => setKw kws "icc_profile" (.iv v)
    | none => kws
  match m.info with
  | some info =>
    info.foldl
      (fun acc e =>
        if e.1 ≠ "exif" ∧ e.1 ≠ "icc_profile" ∧ e.1 ≠ "xmp" ∧ e.2.isScalar = true
        then setKw acc e.1 (.iv e.2) else acc)
      kws
  | none => kws

/-! ## Converter construction (`HEICToJPGConverter.__init__`) -/

/-- The converter's configuration state.  `__init__` stores both
arguments unchanged and performs no validation. -/
structure HEICToJPGConverter where
  quality : Int
  verbose : Bool
deriving DecidableEq, Repr

/-- `HEICToJPGConverter(quality, verbose)`: plain field assignment,
total on every input. -/
def HEICToJPGConverter.init (quality : Int) (verbose : Bool) :
    HEICToJPGConverter :=
  { quality := quality, verbose := verbose }

/-! ## Single-file conversion (`convert_single_file`)

The filesystem is modelled as the list of existing file paths plus two
operation counters; the codec and filesystem collaborators are an
environment saying which fallible step would raise. -/

/-- Observable world state: existing output files, and how many decode
(`Image.open`) and encode (`img.save`) operations have run. -/
structure World where
  fs : List String
  decodes : Nat
  encodes : Nat
deriving DecidableEq, Repr

/-- Behaviour of the external collaborators for one call: whether
`mkdir` succeeds, what decoding the source yields (`none` = the open or
RGB conversion raises), and whether the JPEG encode-and-write succeeds. -/
structure ConvEnv where
  mkdirOk : Bool
  decode : Option ImageInfo
  saveOk : Bool
deriving DecidableEq, Repr

/-- The source path as used by `convert_single_file`: its parent
directory and stem. -/
structure SourcePath where
  parent : String
  stem : String
deriving DecidableEq, Repr

/-- `output_path = (output_folder or source parent) / (stem + ".jpg")`. -/
def outputPathFor (src : SourcePath) (outputFolder : Option String) : String :=
  match outputFolder with
  | some f => f ++ "/" ++ src.stem ++ ".jpg"
  | none => src.parent ++ "/" ++ src.stem ++ ".jpg"

/-- The exceptions the body of `convert_single_file` can raise. -/
inductive ConvError where
  | mkdirErr
  | decodeErr
  | saveErr
deriving DecidableEq, Repr

/-- The body of `convert_single_file` inside its `try`: create the output
folder when given, skip with success when the output already exists,
otherwise decode, build the save parameters and encode.  An error carries
the world state at the raise point. -/
def convertBody (env : ConvEnv) (_c : HEICToJPGConverter) (src : SourcePath)
    (outputFolder : Option String) (w : World) :
    Except (ConvError × World) (Bool × World) :=
  let output_path := outputPathFor src outputFolder
  if outputFolder.isSome && !env.mkdirOk then .error (.mkdirErr, w)
  else if w.fs.contains output_path then .ok (true, w)
  else
    match env.decode with
    | none => .error (.decodeErr, { w with decodes := w.decodes + 1 })
    | some _img =>
      let w1 : World := { w with decodes := w.decodes + 1 }
      -- The metadata extraction and save-parameter assembly between the
      -- decode and the save (modelled by `preserve_metadata` and
      -- `build_save_kwargs`) swallow every exception in their own inner
      -- handlers and do not influence the control flow here.
      if env.saveOk then
        .ok (true, { w1 with fs := output_path :: w1.fs, encodes := w1.encodes + 1 })
      else .error (.saveErr, w1)

/-- `convert_single_file`: the body wrapped in
`try: ... except Exception: return False`. -/
def convert_single_file (env : ConvEnv) (c : HEICToJPGConverter)
    (src : SourcePath) (outputFolder : Option String) (w : World) :
    Bool × World :=
  match convertBody env c src outputFolder w with
  | .ok r => r
  | .error (_, w') => (false, w')

/-! ## Batch orchestration (`convert_folder`)

The loop body is abstracted per discovered file to its observable
outcome: the boolean returned by `convert_single_file`, or an unexpected
exception escaping the per-file `try` block. -/

/-- Outcome of processing one discovered file inside the loop. -/
inductive FileOutcome where
  | ok (success : Bool)
  | exn
deriving DecidableEq, Repr

/-- The statistics dict returned by `convert_folder`. -/
structure RunStats where
  total : Nat
  converted : Nat
  failed : Nat
  skipped : Nat
deriving DecidableEq, Repr

/-- One iteration of the conversion loop: `converted += 1` on success,
`failed += 1` on a `False` return or on a caught exception. -/
def folderStep (s : RunStats) : FileOutcome → RunStats
  | .ok true => { s with converted := s.converted + 1 }
  | .ok false => { s with failed := s.failed + 1 }
  | .exn => { s with failed := s.failed + 1 }

/-- `convert_folder` after discovery: on zero discovered files return the
all-zero stats early (no summary); otherwise run the loop over every
outcome and print the summary, whose success-rate expression divides by
`total`.  The boolean records whether the summary (and its division) was
reached. -/
def convert_folder_run (outcomes : List FileOutcome) : RunStats × Bool :=
  if outcomes.isEmpty then ({ total := 0, converted := 0, failed := 0, skipped := 0 }, false)
  else
    (outcomes.foldl folderStep
      { total := outcomes.length, converted := 0, failed := 0, skipped := 0 }, true)

/-- The stats returned by `convert_folder`. -/
def convert_folder (outcomes : List FileOutcome) : RunStats :=
  (convert_folder_run outcomes).1

/-! ## CLI entry point (`main`) -/

/-- What `converter.convert_folder` does inside the top-level `try`:
return a stats dict, or raise (e.g. an invalid input path). -/
inductive FolderResult where
  | ok (stats : RunStats)
  | raised
deriving DecidableEq, Repr

/-- `main` after argument parsing, as a function of the parsed quality
and of what the conversion run would produce.  Returns whether a
conversion run was started and the process exit code:
quality out of `[1,100]` exits `1` before any conversion; otherwise
`0` when no file failed, `1` on partial failure, `2` on total failure,
`3` when `convert_folder` raised. -/
def mainRun (quality : Int) (fr : FolderResult) : Bool × Nat :=
  if ¬(1 ≤ quality ∧ quality ≤ 100) then (false, 1)
  else
    match fr with
    | .raised => (true, 3)
    | .ok stats =>
      (true,
        if stats.failed = 0 then 0
        else if 0 < stats.converted then 1
        else 2)

/-! ## Spec-side definitions, for comparison with the code -/

/-- The construction boundary as claim C3 words it: quality outside
`[1,100]` is rejected at construction. -/
def initChecked (quality : Int) (verbose : Bool) :
    Except String HEICToJPGConverter :=
  if 1 ≤ quality ∧ quality ≤ 100 then
    .ok { quality := quality, verbose := verbose }
  else .error "quality out of range"

/-- The EXIF priority chain as claim C2 words it: the legacy branch is
"converted the same way", i.e. with the integer-key-in-`[0,65536)`
filtering also applied to the legacy view before dumping it. -/
def exifPriorityClaim (dumpOk : DumpOracle) (m : MetadataBundle) :
    Option ExifData :=
  match m.exif_raw with
  | some v =>
    if v.truthy then some (.raw v) else exifPriorityClaimDict dumpOk m
  | none => exifPriorityClaimDict dumpOk m
where
  /-- Branch (2) of the claimed chain. -/
  exifPriorityClaimDict (dumpOk : DumpOracle) (m : MetadataBundle) :
      Option ExifData :=
    match m.exif_dict with
    | some entries =>
      let f := entries.filter (fun e => validTag e.1)
      if !f.isEmpty && dumpOk f then some (.dumped f)
      else exifPriorityClaimLegacy dumpOk m
    | none => exifPriorityClaimLegacy dumpOk m
  /-- Branch (3) of the claimed chain, with the claimed filtering. -/
  exifPriorityClaimLegacy (dumpOk : DumpOracle) (m : MetadataBundle) :
      Option ExifData :=
    match m.legacy_exif with
    | some entries =>
      let f := entries.filter (fun e => validTag e.1)
      if !f.isEmpty && dumpOk f then some (.dumped f) else none
    | none => none

/-- The EXIF priority chain as the amended claim words it: branch (1)
uses the raw payload when present and truthy; branch (2) the filtered
structured dictionary when the filter keeps at least one entry and the
dump succeeds; branch (3) the legacy view dumped whole, with no
filtering, when that dump succeeds — a failed attempt attaches
nothing. -/
def exifPriorityAmended (dumpOk : DumpOracle) (m : MetadataBundle) :
    Option ExifData :=
  match m.exif_raw with
  | some v =>
    if v.truthy then some (.raw v) else exifPriorityAmendedDict dumpOk m
  | none => exifPriorityAmendedDict dumpOk m
where
  /-- Branch (2) of the amended chain. -/
  exifPriorityAmendedDict (dumpOk : DumpOracle) (m : MetadataBundle) :
      Option ExifData :=
    match m.exif_dict with
    | some entries =>
      let f := entries.filter (fun e => validTag e.1)
      if !f.isEmpty && dumpOk f then some (.dumped f)
      else exifPriorityAmendedLegacy dumpOk m
    | none => exifPriorityAmendedLegacy dumpOk m
  /-- Branch (3) of the amended chain: the whole legacy view, no
  filtering. -/
  exifPriorityAmendedLegacy (dumpOk : DumpOracle) (m : MetadataBundle) :
      Option ExifData :=
    match m.legacy_exif with
    | some entries =>
      if dumpOk entries then some (.dumped entries) else none
    | none => none

/-- A concrete bundle whose only EXIF source is a legacy view mixing the
out-of-range tag 70000 with the dumpable tag 36867 (`DateTimeOriginal`,
ASCII): filtering first would keep and attach the valid entry, while
dumping the unfiltered view raises and leaves nothing attached. -/
def mC2 : MetadataBundle :=
  { info := none, exif_raw := none, xmp := none, icc_profile := none,
    exif_dict := none,
    legacy_exif := some [(PyKey.int 70000, InfoVal.int 1),
                         (PyKey.int 36867, InfoVal.str "2020:01:01 00:00:00")] }

/-- A concrete source image whose `info` mapping carries an XMP payload. -/
def imgXmp : ImageInfo :=
  { info := [("xmp", .bytes [1, 2]), ("foo", .str "bar")],
    getexifEntries := none, legacyExif := none }

/-- ASCII lowercasing of a character, for stating the claimed
case-insensitive extension match. -/
def lowerChar (c : Char) : Char :=
  if 'A' ≤ c ∧ c ≤ 'Z' then Char.ofNat (c.toNat + 32) else c

/-- ASCII lowercasing of a string. -/
def lowerString (s : String) : String := String.mk (s.toList.map lowerChar)

/-! ## Theorems -/

/-- C1: the claim says discovery matches extensions case-insensitively and
includes mixed-case suffixes such as `.Heic`.  It does not: the suffix is
tested by exact membership in the four-element set, so `photo.Heic`, whose
lowercased suffix is `.heic`, is not returned. -/
theorem C1_counterexample :
    lowerString (pathSuffix (FsEntry.mk "photo.Heic" true).name) = ".heic" ∧
    (FsEntry.mk "photo.Heic" true).isFile = true ∧
    find_heic_files [FsEntry.mk "photo.Heic" true] = [] := by
  refine ⟨by decide, rfl, by decide⟩

/-- C1 (amended): `find_heic_files` returns exactly the regular files whose
suffix is literally one of `.heic`, `.heif`, `.HEIC`, `.HEIF`. -/
theorem C1_find_heic_files_exact (entries : List FsEntry) (e : FsEntry) :
    e ∈ find_heic_files entries ↔
      e ∈ entries ∧ e.isFile = true ∧ pathSuffix e.name ∈ heic_extensions := by
  simp [find_heic_files, List.mem_filter, and_assoc]

/-- C2: the claim says the legacy EXIF view is converted "the same way",
with the integer-key-in-`[0,65536)` filtering applied.  The code dumps
the legacy view unfiltered, and the dump's failure is swallowed: on a
bundle whose legacy view mixes the out-of-range tag `70000` with the
dumpable tag `36867`, the claimed filtered chain attaches the valid
entry while the code attaches nothing. -/
theorem C2_counterexample :
    attachedExif dumpOkModel mC2 = none ∧
    exifPriorityClaim dumpOkModel mC2
      = some (.dumped [(PyKey.int 36867, InfoVal.str "2020:01:01 00:00:00")]) ∧
    attachedExif dumpOkModel mC2 ≠ exifPriorityClaim dumpOkModel mC2 := by
  refine ⟨by decide, by decide, by decide⟩

/-- C2 (amended): the attached EXIF payload follows the priority chain
raw-bytes (when present and truthy), else the filtered structured
dictionary (when the filter keeps an entry and the dump succeeds), else
the legacy view dumped whole with no filtering (when that dump succeeds);
a failed or empty attempt leaves the previous value, so when all attempts
yield nothing the save proceeds without EXIF. -/
theorem C2_exif_priority (dumpOk : DumpOracle) (m : MetadataBundle) :
    attachedExif dumpOk m = exifPriorityAmended dumpOk m := by
  obtain ⟨info, er, xmp, icc, ed, le⟩ := m
  simp only [attachedExif, selectExifData, exifFalsy, exifPriorityAmended,
    exifPriorityAmended.exifPriorityAmendedDict,
    exifPriorityAmended.exifPriorityAmendedLegacy]
  cases er with
  | none =>
    cases ed with
    | none =>
      cases le with
      | none => simp [ExifData.truthy]
      | some les =>
        by_cases hl : dumpOk les = true <;> simp [hl, ExifData.truthy]
    | some es =>
      by_cases hf : (es.filter fun e => validTag e.1).isEmpty
      · cases le with
        | none => simp [hf, ExifData.truthy]
        | some les =>
          by_cases hl : dumpOk les = true <;> simp [hf, hl, ExifData.truthy]
      · by_cases hd : dumpOk (es.filter fun e => validTag e.1) = true
        · simp [hf, hd, ExifData.truthy]
        · cases le with
          | none => simp [hf, hd, ExifData.truthy]
          | some les =>
            by_cases hl : dumpOk les = true <;>
              simp [hf, hd, hl, ExifData.truthy]
  | some v =>
    by_cases hv : v.truthy
    · simp [hv, ExifData.truthy]
    · cases ed with
      | none =>
        cases le with
        | none => simp [hv, ExifData.truthy]
        | some les =>
          by_cases hl : dumpOk les = true <;> simp [hv, hl, ExifData.truthy]
      | some es =>
        by_cases hf : (es.filter fun e => validTag e.1).isEmpty
        · cases le with
          | none => simp [hv, hf, ExifData.truthy]
          | some les =>
            by_cases hl : dumpOk les = true <;>
              simp [hv, hf, hl, ExifData.truthy]
        · by_cases hd : dumpOk (es.filter fun e => validTag e.1) = true
          · simp [hv, hf, hd, ExifData.truthy]
          · cases le with
            | none => simp [hv, hf, hd, ExifData.truthy]
            | some les =>
              by_cases hl : dumpOk les = true <;>
                simp [hv, hf, hd, hl, ExifData.truthy]

/-- C3: the claim says an out-of-range quality is rejected at the
construction boundary through the library surface.  It is not:
`HEICToJPGConverter.__init__` performs no validation, so constructing with
quality `101` succeeds and stores `101`, while the claimed checked
construction rejects it. -/
theorem C3_counterexample :
    HEICToJPGConverter.init 101 false =
      { quality := 101, verbose := false } ∧
    initChecked 101 false = .error "quality out of range" := by
  refine ⟨rfl, by norm_num [initChecked]⟩

/-- C3 (amended): the library constructor stores any quality and verbose
flag unchanged without validation; only the CLI boundary rejects an
out-of-range quality, exiting with code 1 before any conversion run is
started. -/
theorem C3_construction (q : Int) (v : Bool) :
    (HEICToJPGConverter.init q v).quality = q ∧
    (HEICToJPGConverter.init q v).verbose = v ∧
    (¬(1 ≤ q ∧ q ≤ 100) → ∀ fr : FolderResult, mainRun q fr = (false, 1)) := by
  refine ⟨rfl, rfl, fun h fr => ?_⟩
  simp [mainRun, h]

/-- Witness for C3 at quality 101. -/
theorem C3_construction_witness :
    (HEICToJPGConverter.init 101 true).quality = 101 ∧
    (HEICToJPGConverter.init 101 true).verbose = true ∧
    mainRun 101 (.ok ⟨0, 0, 0, 0⟩) = (false, 1) :=
  ⟨(C3_construction 101 true).1, (C3_construction 101 true).2.1,
   (C3_construction 101 true).2.2 (by norm_num) (FolderResult.ok ⟨0, 0, 0, 0⟩)⟩

/-- C4: the claim says the quality-rejection exit code is distinct from
all per-run outcome codes.  It is not: `main` exits with code 1 both for
an out-of-range quality and for a partial failure. -/
theorem C4_counterexample :
    mainRun 0 (.ok ⟨0, 0, 0, 0⟩) = (false, 1) ∧
    mainRun 95 (.ok ⟨2, 1, 1, 0⟩) = (true, 1) := by
  refine ⟨by norm_num [mainRun], by norm_num [mainRun]⟩

/-- C4 (amended): the exit code is 0 when no conversion failed (including
zero files found), 1 on partial failure, 2 when every attempted conversion
failed, 3 when the run raised; an out-of-range quality exits with code 1
before any conversion run is started — non-zero, but coinciding with the
partial-failure code rather than distinct from it. -/
theorem C4_exit_codes (q : Int) (fr : FolderResult) :
    (¬(1 ≤ q ∧ q ≤ 100) → mainRun q fr = (false, 1)) ∧
    ((1 ≤ q ∧ q ≤ 100) →
      mainRun q fr =
        (true,
          match fr with
          | .raised => 3
          | .ok stats =>
            if stats.failed = 0 then 0
            else if 0 < stats.converted then 1 else 2)) := by
  constructor
  · intro h
    simp [mainRun, h]
  · intro h
    cases fr <;> simp [mainRun, h]

/-- Witness for C4 covering both the rejection path and an accepted
quality with a raising run. -/
theorem C4_exit_codes_witness :
    mainRun 101 (.ok ⟨0, 0, 0, 0⟩) = (false, 1) ∧
    mainRun 95 FolderResult.raised = (true, 3) :=
  ⟨(C4_exit_codes 101 (.ok ⟨0, 0, 0, 0⟩)).1 (by norm_num),
   (C4_exit_codes 95 FolderResult.raised).2 (by norm_num)⟩

/-- Counting a predicate and its complement over a list covers it. -/
theorem countP_add_countP_not {α : Type} (p : α → Bool) (l : List α) :
    l.countP p + l.countP (fun a => !p a) = l.length := by
  induction l with
  | nil => rfl
  | cons x xs ih =>
    by_cases h : p x = true <;> simp [List.countP_cons, h] <;> omega

/-- The conversion loop, characterized: `total` and `skipped` are left
unchanged, `converted` counts the successful outcomes, `failed` counts the
rest. -/
theorem folder_loop_characterize (ocs : List FileOutcome) (s : RunStats) :
    ocs.foldl folderStep s =
      { total := s.total,
        converted := s.converted + ocs.countP (fun oc => oc == .ok true),
        failed := s.failed + ocs.countP (fun oc => !(oc == .ok true)),
        skipped := s.skipped } := by
  induction ocs generalizing s with
  | nil => simp
  | cons oc rest ih =>
    rw [List.foldl_cons, ih]
    cases oc with
    | ok b =>
      cases b <;>
        simp [folderStep, List.countP_cons, RunStats.mk.injEq] <;> omega
    | exn =>
      simp [folderStep, List.countP_cons, RunStats.mk.injEq]
      omega

/-- C5: after any run of `convert_folder`, `total` is the number of
discovered files, `converted` counts exactly the files whose conversion
returned true, `failed` counts exactly the files that returned false or
raised, and `converted + failed = total`. -/
theorem C5_stats_invariant (outcomes : List FileOutcome) :
    (convert_folder outcomes).total = outcomes.length ∧
    (convert_folder outcomes).converted
      = outcomes.countP (fun oc => oc == .ok true) ∧
    (convert_folder outcomes).failed
      = outcomes.countP (fun oc => !(oc == .ok true)) ∧
    (convert_folder outcomes).converted + (convert_folder outcomes).failed
      = (convert_folder outcomes).total := by
  unfold convert_folder convert_folder_run
  by_cases h : outcomes.isEmpty
  · rw [List.isEmpty_iff] at h
    subst h
    simp
  · simp only [h, if_false, folder_loop_characterize, Nat.zero_add]
    refine ⟨rfl, rfl, rfl, ?_⟩
    exact countP_add_countP_not (fun oc => oc == FileOutcome.ok true) outcomes

/-- C6: `convert_single_file` never propagates an exception: whenever the
body raises anywhere (directory creation, decode, encode, write), the
wrapper returns `false` with the world state left by the raise. -/
theorem C6_no_propagation (env : ConvEnv) (c : HEICToJPGConverter)
    (src : SourcePath) (outputFolder : Option String) (w : World)
    (e : ConvError) (w' : World)
    (h : convertBody env c src outputFolder w = .error (e, w')) :
    convert_single_file env c src outputFolder w = (false, w') := by
  simp [convert_single_file, h]

/-- Witness for C6: a decode failure yields `false`, not an exception. -/
theorem C6_no_propagation_witness :
    convert_single_file ⟨true, none, true⟩ (.init 95 false) ⟨"d", "p"⟩ none
      ⟨[], 0, 0⟩ = (false, ⟨[], 1, 0⟩) :=
  C6_no_propagation ⟨true, none, true⟩ (.init 95 false) ⟨"d", "p"⟩ none
    ⟨[], 0, 0⟩ ConvError.decodeErr ⟨[], 1, 0⟩ rfl

/-- Any call either leaves the filesystem and encode counter unchanged, or
performs exactly one encode and adds the previously absent output path. -/
theorem convert_encode_cases (env : ConvEnv) (c : HEICToJPGConverter)
    (src : SourcePath) (outputFolder : Option String) (w : World) :
    ((convert_single_file env c src outputFolder w).2.encodes = w.encodes ∧
      (convert_single_file env c src outputFolder w).2.fs = w.fs) ∨
    ((convert_single_file env c src outputFolder w).2.encodes = w.encodes + 1 ∧
      (convert_single_file env c src outputFolder w).2.fs
        = outputPathFor src outputFolder :: w.fs ∧
      outputPathFor src outputFolder ∉ w.fs) := by
  unfold convert_single_file convertBody
  by_cases hmk : (outputFolder.isSome && !env.mkdirOk) = true
  · simp [hmk]
  · by_cases hex : outputPathFor src outputFolder ∈ w.fs
    · simp [hmk, hex]
    · cases hd : env.decode with
      | none => simp [hmk, hex, hd]
      | some img =>
        by_cases hs : env.saveOk = true
        · refine Or.inr ⟨?_, ?_, hex⟩ <;> simp [hmk, hex, hd, hs]
        · simp [hmk, hex, hd, hs]

/-- C7: when the computed output path already exists (and the optional
output-directory creation does not itself fail), `convert_single_file`
returns `true` with the world untouched — no decode, no encode, no
filesystem change; and across any two consecutive calls on the same
source/output pair the encode runs at most once. -/
theorem C7_idempotent (env env2 : ConvEnv) (c c2 : HEICToJPGConverter)
    (src : SourcePath) (outputFolder : Option String) (w : World)
    (hmk : outputFolder.isSome = true → env.mkdirOk = true)
    (hex : w.fs.contains (outputPathFor src outputFolder) = true) :
    convert_single_file env c src outputFolder w = (true, w) ∧
    ∀ w0 : World,
      (convert_single_file env2 c2 src outputFolder
        (convert_single_file env c src outputFolder w0).2).2.encodes
        ≤ w0.encodes + 1 := by
  constructor
  · have hex2 : outputPathFor src outputFolder ∈ w.fs := by simpa using hex
    have hmk2 : (outputFolder.isSome && !env.mkdirOk) = false := by
      cases ho : outputFolder.isSome with
      | false => simp [ho]
      | true => simp [ho, hmk ho]
    unfold convert_single_file convertBody
    simp [hmk2, hex2]
  · intro w0
    rcases convert_encode_cases env c src outputFolder w0 with
      ⟨he1, hf1⟩ | ⟨he1, hf1, habs⟩ <;>
      rcases convert_encode_cases env2 c2 src outputFolder
        (convert_single_file env c src outputFolder w0).2 with
        ⟨he2, _⟩ | ⟨he2, _, habs2⟩
    · omega
    · rw [hf1] at habs2
      omega
    · omega
    · rw [hf1] at habs2
      exact absurd (List.mem_cons_self _ _) habs2

/-- Witness for C7: a pre-existing output is skipped with success, and two
consecutive fresh conversions encode once in total. -/
theorem C7_idempotent_witness :
    convert_single_file ⟨true, some ⟨[], none, none⟩, true⟩ (.init 95 false)
      ⟨"d", "p"⟩ none ⟨["d/p.jpg"], 0, 0⟩ = (true, ⟨["d/p.jpg"], 0, 0⟩) ∧
    (convert_single_file ⟨true, some ⟨[], none, none⟩, true⟩ (.init 95 false)
      ⟨"d", "p"⟩ none
      (convert_single_file ⟨true, some ⟨[], none, none⟩, true⟩ (.init 95 false)
        ⟨"d", "p"⟩ none ⟨[], 0, 0⟩).2).2.encodes ≤ 0 + 1 := by
  have h := C7_idempotent ⟨true, some ⟨[], none, none⟩, true⟩
    ⟨true, some ⟨[], none, none⟩, true⟩ (.init 95 false) (.init 95 false)
    ⟨"d", "p"⟩ none ⟨["d/p.jpg"], 0, 0⟩ (by decide) (by decide)
  exact ⟨h.1, h.2 ⟨[], 0, 0⟩⟩

/-- Every key of `setKw kws k v` is `k` or a key already in `kws`. -/
theorem setKw_key_mem (kws : List (String × SaveVal)) (k : String)
    (v : SaveVal) (e : String × SaveVal) (he : e ∈ setKw kws k v) :
    e.1 = k ∨ ∃ e2 ∈ kws, e2.1 = e.1 := by
  unfold setKw at he
  split at he
  · obtain ⟨x, hx, hfx⟩ := List.mem_map.mp he
    by_cases hxk : (x.1 == k) = true
    · left
      rw [if_pos hxk] at hfx
      rw [← hfx]
    · right
      rw [if_neg hxk] at hfx
      exact ⟨x, hx, by rw [hfx]⟩
  · rcases List.mem_append.mp he with h | h
    · exact Or.inr ⟨e, h, rfl⟩
    · left
      have : e = (k, v) := by simpa using h
      rw [this]

/-- The `info` loop of the save-parameter assembly never introduces an
`xmp` key. -/
theorem info_loop_no_xmp (info : List (String × InfoVal))
    (acc : List (String × SaveVal))
    (h : ∀ e ∈ acc, e.1 ≠ "xmp") :
    ∀ e ∈ info.foldl
        (fun acc e =>
          if e.1 ≠ "exif" ∧ e.1 ≠ "icc_profile" ∧ e.1 ≠ "xmp" ∧ e.2.isScalar = true
          then setKw acc e.1 (.iv e.2) else acc)
        acc,
      e.1 ≠ "xmp" := by
  induction info generalizing acc with
  | nil => exact h
  | cons x rest ih =>
    rw [List.foldl_cons]
    apply ih
    intro e he
    split at he
    · rename_i hcond
      rcases setKw_key_mem _ _ _ _ he with hk | ⟨e2, he2, hk⟩
    -- the new key is x.1, which the guard requires to differ from "xmp"
      · rw [hk]
        exact hcond.2.2.1
      · rw [← hk]
        exact h e2 he2
    · exact h e he

/-- C8: the claim says the XMP payload is included in the encoder
parameters.  It is not: on a source whose `info` mapping carries an XMP
payload, the bundle stores it but the assembled save parameters contain no
`xmp` key. -/
theorem C8_counterexample :
    (preserve_metadata imgXmp).xmp = some (InfoVal.bytes [1, 2]) ∧
    (build_save_kwargs dumpOkModel 95 (preserve_metadata imgXmp)).any
      (fun e => e.1 == "xmp") = false := by
  refine ⟨by decide, by decide⟩

/-- C8 (amended): the XMP payload is extracted into the metadata bundle
(the bundle's `xmp` field holds the `info` mapping's `xmp` entry whenever
the mapping is non-empty), but the save parameters passed to the encoder
never contain an `xmp` key, for any quality and any bundle: XMP is not
carried over. -/
theorem C8_no_xmp (dumpOk : DumpOracle) (quality : Int) (img : ImageInfo) :
    (preserve_metadata img).xmp
      = (if img.info.isEmpty then none else lookupInfo img.info "xmp") ∧
    ∀ m : MetadataBundle,
      (build_save_kwargs dumpOk quality m).any
        (fun e => e.1 == "xmp") = false := by
  constructor
  · unfold preserve_metadata
    cases h : img.info.isEmpty <;> simp [h]
  · intro m
    rw [List.any_eq_false]
    intro e he
    unfold build_save_kwargs at he
    have hbase : ∀ e2 ∈ ([("format", SaveVal.s "JPEG"),
        ("quality", SaveVal.i quality),
        ("optimize", SaveVal.b true)] : List (String × SaveVal)),
        e2.1 ≠ "xmp" := by
      intro e2 he2
      simp only [List.mem_cons, List.not_mem_nil, or_false] at he2
      rcases he2 with h | h | h <;> subst h <;> simp
    have hexif : ∀ e2 ∈
        (match attachedExif dumpOk m with
        | some d => setKw [("format", SaveVal.s "JPEG"),
            ("quality", SaveVal.i quality),
            ("optimize", SaveVal.b true)] "exif" (.exif d)
        | none => [("format", SaveVal.s "JPEG"),
            ("quality", SaveVal.i quality),
            ("optimize", SaveVal.b true)]),
        e2.1 ≠ "xmp" := by
      cases hd : attachedExif dumpOk m with
      | none => exact hbase
      | some d =>
        intro e2 he2
        rcases setKw_key_mem _ _ _ _ he2 with hk | ⟨e3, he3, hk⟩
        · rw [hk]
          decide
        · rw [← hk]
          exact hbase e3 he3
    have hicc : ∀ e2 ∈
        (match m.icc_profile with
        | some v2 => setKw
            (match attachedExif dumpOk m with
            | some d => setKw [("format", SaveVal.s "JPEG"),
                ("quality", SaveVal.i quality),
                ("optimize", SaveVal.b true)] "exif" (.exif d)
            | none => [("format", SaveVal.s "JPEG"),
                ("quality", SaveVal.i quality),
                ("optimize", SaveVal.b true)]) "icc_profile" (.iv v2)
        | none =>
            match attachedExif dumpOk m with
            | some d => setKw [("format", SaveVal.s "JPEG"),
                ("quality", SaveVal.i quality),
                ("optimize", SaveVal.b true)] "exif" (.exif d)
            | none => [("format", SaveVal.s "JPEG"),
                ("quality", SaveVal.i quality),
                ("optimize", SaveVal.b true)]),
        e2.1 ≠ "xmp" := by
      cases hi : m.icc_profile with
      | none => exact hexif
      | some v2 =>
        intro e2 he2
        rcases setKw_key_mem _ _ _ _ he2 with hk | ⟨e3, he3, hk⟩
        · rw [hk]
          decide
        · rw [← hk]
          exact hexif e3 he3
    have hkey : e.1 ≠ "xmp" := by
      cases hinfo : m.info with
      | none =>
        rw [hinfo] at he
        exact hicc e he
      | some info =>
        rw [hinfo] at he
        exact info_loop_no_xmp info _ hicc e he
    simpa using hkey

/-- C9: the `skipped` counter returned by `convert_folder` is always 0 —
no code path increments it — and the `True` outcome that an existing-output
skip produces increments `converted`. -/
theorem C9_skipped_zero (outcomes : List FileOutcome) (s : RunStats) :
    (convert_folder outcomes).skipped = 0 ∧
    folderStep s (.ok true) = { s with converted := s.converted + 1 } := by
  refine ⟨?_, rfl⟩
  unfold convert_folder convert_folder_run
  by_cases h : outcomes.isEmpty
  · simp [h]
  · simp [h, folder_loop_characterize]

/-- C10: the success-percentage division of the conversion summary is
reached only when at least one file was discovered: the zero-file case
returns early, so whenever the summary runs, `total` is positive. -/
theorem C10_summary_total_pos (outcomes : List FileOutcome)
    (h : (convert_folder_run outcomes).2 = true) :
    0 < (convert_folder_run outcomes).1.total := by
  unfold convert_folder_run at h ⊢
  by_cases he : outcomes.isEmpty
  · simp [he] at h
  · simp [he, folder_loop_characterize]
    rw [List.isEmpty_iff] at he
    exact List.length_pos.mpr he

/-- Witness for C10: a one-file run reaches the summary with a positive
total. -/
theorem C10_summary_total_pos_witness :
    (convert_folder_run [.ok true]).2 = true ∧
    0 < (convert_folder_run [.ok true]).1.total :=
  ⟨rfl, C10_summary_total_pos [.ok true] rfl⟩

end HeicConvert
